import Mathlib

set_option maxHeartbeats 1000000
set_option linter.unusedVariables false

/-!
Verification of the typefit repository.

Part 1 embeds the compatibility module src/typefit/compat.py, which backports
the typing helpers get_origin, get_args and the Literal special form.

Part 2 models the fitting core (the module typefit.fitting with its
operations typefit and _handle_literal).  That module is exercised by the
repository's tests but its code is not part of the source tree given here,
so the core is modelled from the specification; every such definition is
marked with a doc comment starting with Modelled from the spec.
-/

namespace Compat

/-- Python exceptions raised by the compatibility module. -/
inductive PyError where
  | typeError (msg : String)
deriving DecidableEq

/-- A backported special typing form (the class literally named with a
leading underscore in the source).  It carries the two slots of the source
class: the form name and its docstring.  The docstring is inert data (nothing
in the module reads it), so its text is abridged here. -/
structure SpecialForm where
  _name : String
  _doc : String
deriving DecidableEq

/-- Python objects as the compatibility module distinguishes them: literal
values usable as parameters of a Literal subscription, the Ellipsis
singleton, the typing.Generic singleton, an instance of the backported
special-form class, a subscripted generic alias carrying its origin and its
argument tuple, the collections.abc.Callable origin, plain non-generic types
(such as int or str), and Python lists (the Callable branch of get_args
builds one). -/
inductive PyObj where
  | vStr (s : String)
  | vInt (n : Int)
  | vBool (b : Bool)
  | vNone
  | ellipsis
  | generic
  | specialForm (f : SpecialForm)
  | genericAlias (origin : PyObj) (args : List PyObj)
  | callable
  | plainType (nm : String)
  | pyList (xs : List PyObj)

/-- The runtime test isinstance tp _GenericAlias used by the source. -/
def isGenericAlias : PyObj → Bool
  | .genericAlias _ _ => true
  | _ => false

/-- Get the unsubscripted version of a type (compat.py lines 17 to 35):
the origin attribute of a generic alias, Generic for Generic itself, and
None for unsupported types. -/
def get_origin (tp : PyObj) : Option PyObj :=
  match tp with
  | .genericAlias origin _ => some origin
  | .generic => some .generic
  | _ => none

/-- Get type arguments with all substitutions performed (compat.py lines
42 to 58): the argument tuple of a generic alias, reshaped for a Callable
origin whose first argument is not Ellipsis, and the empty tuple otherwise.
A Callable alias with an empty argument tuple would raise IndexError in the
source when it reads the first argument; such an alias is never built by the
typing module and the branch is modelled as returning the tuple unchanged. -/
def get_args (tp : PyObj) : List PyObj :=
  match tp with
  | .genericAlias origin args =>
    match origin, args with
    | .callable, .ellipsis :: rest => .ellipsis :: rest
    | .callable, a :: rest =>
      [.pyList ((a :: rest).dropLast), (a :: rest).getLast (List.cons_ne_nil a rest)]
    | _, args => args
  | _ => []

/-- The repr of a special form (the source builds the string typing.
followed by the form name). -/
def SpecialForm.pyRepr (f : SpecialForm) : String := "typing." ++ f._name

/-- Calling a special form as a constructor (compat.py lines 114 to 115):
always raises TypeError. -/
def SpecialForm.__call__ (f : SpecialForm) (args : List PyObj)
    (kwds : List (String × PyObj)) : Except PyError PyObj :=
  .error (.typeError ("Cannot instantiate " ++ f.pyRepr))

/-- Using a special form with isinstance (compat.py lines 117 to 118):
always raises TypeError. -/
def SpecialForm.__instancecheck__ (f : SpecialForm) (obj : PyObj) :
    Except PyError Bool :=
  .error (.typeError (f.pyRepr ++ " cannot be used with isinstance()"))

/-- Using a special form with issubclass (compat.py lines 120 to 121):
always raises TypeError. -/
def SpecialForm.__subclasscheck__ (f : SpecialForm) (cls : PyObj) :
    Except PyError Bool :=
  .error (.typeError (f.pyRepr ++ " cannot be used with issubclass()"))

/-- Subscripting a special form (compat.py lines 123 to 129): for the form
named Literal, wrap self and the parameters in a generic alias with no type
checking of the parameters; every other form raises TypeError.  The source
decorates this method with the typing cache decorator, which memoizes the
result per argument tuple and does not change the value returned. -/
def SpecialForm.__getitem__ (f : SpecialForm) (parameters : List PyObj) :
    Except PyError PyObj :=
  if f._name = "Literal" then
    .ok (.genericAlias (.specialForm f) parameters)
  else
    .error (.typeError (f.pyRepr ++ " is not subscriptable"))

/-- The backported Literal special form (compat.py lines 131 to 154). -/
def Literal : SpecialForm :=
  ⟨"Literal", "Special typing form to define literal types (a.k.a. value types)."⟩

end Compat

namespace Typefit

/-- Modelled from the spec: a permitted literal value of a LiteralSet
descriptor; the spec (section 3) allows strings, numbers and booleans. -/
inductive Lit where
  | str (s : String)
  | num (n : Int)
  | bool (b : Bool)
deriving DecidableEq

/-- Modelled from the spec: the untyped input value tree (section 3), a
discriminated union of null, booleans, numbers, strings, sequences and
string-keyed mappings.  Numbers are modelled as integers; no claim involves
a non-integral number. -/
inductive Value where
  | null
  | bool (b : Bool)
  | num (n : Int)
  | str (s : String)
  | seq (xs : List Value)
  | map (entries : List (String × Value))

/-- Modelled from the spec: the scalar kinds the dispatcher checks directly
(section 4.6 names text, integer and boolean as examples). -/
inductive ScalarKind where
  | text
  | integer
  | boolean
deriving DecidableEq

/-- Modelled from the spec: the Type Descriptor (section 3), the normalized
view of a declared type.  The kinds the claims exercise are covered: scalar,
literal-set, optional, union, sequence and record.  A record field is a
triple of field name, field descriptor and a required flag (section 3:
name, field descriptor, required or optional). -/
inductive Descriptor where
  | scalar (k : ScalarKind)
  | literalSet (lits : List Lit)
  | optional (wrapped : Descriptor)
  | union (members : List Descriptor)
  | sequence (elem : Descriptor)
  | record (rname : String) (fields : List (String × Descriptor × Bool))

/-- Modelled from the spec: the typed output of a fit (section 3): a native
scalar, the absent marker or a present wrapper for optionals, a materialized
record instance, or an ordered collection of fitted values. -/
inductive Fitted where
  | scalar (v : Value)
  | absent
  | present (f : Fitted)
  | recordInst (rname : String) (fields : List (String × Fitted))
  | seqOf (xs : List Fitted)

/-- Modelled from the spec: a Fit Error (sections 3 and 7): a mismatch of a
value against a descriptor, a missing required field, an aggregate of every
member failure of a union, and path wrappers contributed by the record
builder and the collection mapper. -/
inductive FitError where
  | mismatch (expected : Descriptor) (actual : Value)
  | missingField (fname : String)
  | aggregate (errors : List FitError)
  | atField (fname : String) (e : FitError)
  | atIndex (i : Nat) (e : FitError)

/-- Modelled from the spec: value-and-kind equality of an input value with a
permitted literal (section 4.2: exact value and type match, no coercion, so
a boolean never matches a numeric literal). -/
def litMatches (v : Value) (l : Lit) : Bool :=
  match v, l with
  | .str s, .str s2 => s = s2
  | .num n, .num n2 => n = n2
  | .bool b, .bool b2 => b = b2
  | _, _ => false

/-- Modelled from the spec: the Literal Validator (section 4.2), the
operation the tests import as a single underscore handle literal function:
it returns the value unchanged when it is value-and-kind-equal to one of the
permitted literals, and otherwise fails with a fit error naming the
permitted set and the actual value. -/
def _handle_literal (lits : List Lit) (v : Value) : Except FitError Value :=
  if lits.any (litMatches v) then .ok v
  else .error (.mismatch (.literalSet lits) v)

/-- Lookup of a field name in an input mapping, first entry wins. -/
def lookupEntry (n : String) : List (String × Value) → Option Value
  | [] => none
  | (k, v) :: rest => if k = n then some v else lookupEntry n rest

mutual

/-- Modelled from the spec: the dispatcher fit (section 4.6).  It dispatches
on the descriptor kind: scalars accept exactly the matching input kind with
no widening; literal sets go through the literal validator; optional treats
null as absent and otherwise fits the wrapped descriptor; unions try their
members in order; sequences fit every element in index order; records fit
each declared field against the input mapping.  Any shape mismatch fails
with a fit error carrying the expected descriptor and the actual value. -/
def fit : Descriptor → Value → Except FitError Fitted
  | .scalar .text, .str s => .ok (.scalar (.str s))
  | .scalar .integer, .num n => .ok (.scalar (.num n))
  | .scalar .boolean, .bool b => .ok (.scalar (.bool b))
  | .scalar k, v => .error (.mismatch (.scalar k) v)
  | .literalSet lits, v =>
    match _handle_literal lits v with
    | .ok r => .ok (.scalar r)
    | .error e => .error e
  | .optional w, .null => .ok .absent
  | .optional w, v =>
    match fit w v with
    | .ok r => .ok (.present r)
    | .error e => .error e
  | .union ms, v =>
    match fitUnion ms v with
    | .ok r => .ok r
    | .error es => .error (.aggregate es)
  | .sequence elem, .seq xs =>
    match fitSeq elem 0 xs with
    | .ok rs => .ok (.seqOf rs)
    | .error e => .error e
  | .sequence elem, v => .error (.mismatch (.sequence elem) v)
  | .record rn fields, .map es =>
    match fitFields fields es with
    | .ok rs => .ok (.recordInst rn rs)
    | .error e => .error e
  | .record rn fields, v => .error (.mismatch (.record rn fields) v)
termination_by d v => (sizeOf d, 0)

/-- Modelled from the spec: the Union Discriminator (section 4.3).  Members
are attempted in declaration order; the first success is returned at once
and later members are never attempted; when every member fails, the
individual failures are collected in member order for the aggregate fit
error the dispatcher raises. -/
def fitUnion : List Descriptor → Value → Except (List FitError) Fitted
  | [], _ => .error []
  | m :: rest, v =>
    match fit m v with
    | .ok r => .ok r
    | .error e =>
      match fitUnion rest v with
      | .ok r => .ok r
      | .error es => .error (e :: es)
termination_by ms v => (sizeOf ms, 0)

/-- Modelled from the spec: the sequence side of the Collection Mapper
(section 4.4): every element is fitted against the element descriptor in
index order; the first failure aborts carrying its index, and the ordered
results are collected. -/
def fitSeq (elem : Descriptor) (i : Nat) : List Value → Except FitError (List Fitted)
  | [] => .ok []
  | x :: xs =>
    match fit elem x with
    | .error e => .error (.atIndex i e)
    | .ok r =>
      match fitSeq elem (i + 1) xs with
      | .error e => .error e
      | .ok rs => .ok (r :: rs)
termination_by xs => (sizeOf elem, sizeOf xs)

/-- Modelled from the spec: the Record Builder (section 4.5): each declared
field, in declaration order, is looked up in the input mapping; a missing
required field fails naming the field, a missing optional field becomes the
absent marker without recursing, and a present field is fitted recursively
with the field name wrapped onto any failure.  Extra input keys are ignored
because only declared names are looked up. -/
def fitFields : List (String × Descriptor × Bool) → List (String × Value) →
    Except FitError (List (String × Fitted))
  | [], _ => .ok []
  | (n, fd, req) :: rest, es =>
    match lookupEntry n es with
    | none =>
      if req then .error (.missingField n)
      else
        match fitFields rest es with
        | .error e => .error e
        | .ok rs => .ok ((n, .absent) :: rs)
    | some val =>
      match fit fd val with
      | .error e => .error (.atField n e)
      | .ok r =>
        match fitFields rest es with
        | .error e => .error e
        | .ok rs => .ok ((n, r) :: rs)
termination_by fields es => (sizeOf fields, 0)

end

/-- Modelled from the spec: the exposed entry point typefit (section 6).
The resolution of a host-language declared type into a descriptor is the
introspection collaborator's job; the entry point is modelled directly on
the resolved descriptor and runs one fitting pass. -/
def typefit (d : Descriptor) (v : Value) : Except FitError Fitted := fit d v

/-- Modelled from the spec: one fitting pass observed together with the
input it was given.  The spec (sections 3 and 5) states the core is purely
functional and never mutates the input, so the pass is modelled as a pure
function and the second component, the input as left after the pass, is the
input itself. -/
def fitPass (d : Descriptor) (v : Value) : Except FitError Fitted × Value :=
  (fit d v, v)

/-- The failure carried by a fit outcome, when there is one. -/
def errOf : Except FitError Fitted → Option FitError
  | .error e => some e
  | .ok _ => none

/-- The record A of the end-to-end tagged-union scenario: one required
field named type whose descriptor is the literal set with the single
permitted string a. -/
def A_desc : Descriptor := .record "A" [("type", .literalSet [.str "a"], true)]

/-- The record B of the end-to-end tagged-union scenario: one required
field named type whose descriptor is the literal set with the single
permitted string b. -/
def B_desc : Descriptor := .record "B" [("type", .literalSet [.str "b"], true)]

/-- The union of A and B of the end-to-end tagged-union scenario. -/
def T_desc : Descriptor := .union [A_desc, B_desc]

end Typefit

namespace Compat

/-- Claim C5: the backported type introspection behaves as specified: for a
subscripted generic alias, get_origin returns its unsubscripted origin (in
particular the Literal special form for a literal subscription), get_origin
of Generic is Generic itself, and get_origin of any unsupported non-generic
type is none; get_args returns the ordered argument sequence of a
subscripted generic alias (verbatim except for the Callable reshaping, and
in particular verbatim for any special-form origin such as Literal) and the
empty sequence for any non-generic type. -/
theorem claim_C5_introspection :
    (∀ (origin : PyObj) (args : List PyObj),
      get_origin (.genericAlias origin args) = some origin) ∧
    get_origin .generic = some .generic ∧
    (∀ tp : PyObj, isGenericAlias tp = false → tp ≠ .generic →
      get_origin tp = none) ∧
    (∀ (origin : PyObj) (args : List PyObj), origin ≠ .callable →
      get_args (.genericAlias origin args) = args) ∧
    (∀ (f : SpecialForm) (params : List PyObj),
      get_args (.genericAlias (.specialForm f) params) = params) ∧
    (∀ tp : PyObj, isGenericAlias tp = false → get_args tp = []) := by
  refine ⟨fun origin args => rfl, rfl, ?_, ?_, fun f params => rfl, ?_⟩
  · intro tp h1 h2
    cases tp <;> simp_all [isGenericAlias, get_origin]
  · intro origin args h
    cases origin <;> first | rfl | exact absurd rfl h
  · intro tp h
    cases tp <;> simp_all [isGenericAlias, get_args]

/-- Witness for claim C5: the plain non-generic type int has no origin and
no type arguments. -/
theorem claim_C5_introspection_witness :
    get_origin (.plainType "int") = none ∧ get_args (.plainType "int") = [] :=
  ⟨claim_C5_introspection.2.2.1 (.plainType "int") rfl (by simp),
   claim_C5_introspection.2.2.2.2.2 (.plainType "int") rfl⟩

/-- Claim C9: subscripting the backported Literal special form with any
parameter tuple yields a generic alias whose origin, as reported by the
backported get_origin, is the Literal form itself, and whose arguments, as
reported by the backported get_args, are exactly the parameters in order,
stored verbatim with no type checking or deduplication. -/
theorem claim_C9_literal_roundtrip : ∀ (p : List PyObj),
    SpecialForm.__getitem__ Literal p =
      Except.ok (.genericAlias (.specialForm Literal) p) ∧
    get_origin (.genericAlias (.specialForm Literal) p) =
      some (.specialForm Literal) ∧
    get_args (.genericAlias (.specialForm Literal) p) = p := by
  intro p
  exact ⟨by simp [SpecialForm.__getitem__, Literal], rfl, rfl⟩

/-- Claim C10: every misuse of the backported special-form machinery raises
TypeError: calling a special form as a constructor, using it with isinstance
or with issubclass, and subscripting a special form whose name is not
Literal; none of these operations returns normally. -/
theorem claim_C10_misuse_raises : ∀ (f : SpecialForm) (args : List PyObj)
    (kwds : List (String × PyObj)) (obj cls : PyObj) (p : List PyObj),
    (∃ m, f.__call__ args kwds = Except.error (.typeError m)) ∧
    (∃ m, f.__instancecheck__ obj = Except.error (.typeError m)) ∧
    (∃ m, f.__subclasscheck__ cls = Except.error (.typeError m)) ∧
    (f._name ≠ "Literal" → ∃ m, f.__getitem__ p = Except.error (.typeError m)) := by
  intro f args kwds obj cls p
  refine ⟨⟨_, rfl⟩, ⟨_, rfl⟩, ⟨_, rfl⟩,
    fun h => ⟨f.pyRepr ++ " is not subscriptable", ?_⟩⟩
  simp [SpecialForm.__getitem__, h]

/-- Witness for claim C10: subscripting a special form named Union raises
TypeError. -/
theorem claim_C10_misuse_raises_witness :
    ∃ m, SpecialForm.__getitem__ ⟨"Union", ""⟩ [] = Except.error (.typeError m) :=
  (claim_C10_misuse_raises ⟨"Union", ""⟩ [] [] .vNone .vNone []).2.2.2 (by decide)

end Compat

namespace Typefit

/-- A union member list on which every member fails has its attempts
collected in order: fitUnion returns the error list whose entries are
exactly each member's individual failure. -/
theorem fitUnion_all_fail (v : Value) :
    ∀ (ms : List Descriptor), (∀ m ∈ ms, ∃ e, fit m v = Except.error e) →
    ∃ errs, fitUnion ms v = Except.error errs ∧
      errs.map some = ms.map (fun m => errOf (fit m v)) := by
  intro ms
  induction ms with
  | nil => intro h; exact ⟨[], by simp [fitUnion], by simp⟩
  | cons m rest ih =>
    intro h
    obtain ⟨e, he⟩ := h m (by simp)
    obtain ⟨errs, hu, hmap⟩ := ih (fun m2 hm => h m2 (by simp [hm]))
    refine ⟨e :: errs, ?_, ?_⟩
    · simp only [fitUnion]
      rw [he, hu]
    · simp [he, hmap, errOf]

/-- The first union member that fits wins: when every member before it
fails and it fits, fitUnion returns its result whatever comes after it. -/
theorem fitUnion_first_success (v : Value) :
    ∀ (pre : List Descriptor) (m : Descriptor) (post : List Descriptor)
      (r : Fitted),
    (∀ m2 ∈ pre, ∃ e, fit m2 v = Except.error e) → fit m v = Except.ok r →
    fitUnion (pre ++ m :: post) v = Except.ok r := by
  intro pre
  induction pre with
  | nil =>
    intro m post r hpre hm
    simp only [List.nil_append, fitUnion]
    rw [hm]
  | cons p ps ih =>
    intro m post r hpre hm
    obtain ⟨e, he⟩ := hpre p (by simp)
    have hrest := ih m post r (fun m2 h2 => hpre m2 (by simp [h2])) hm
    simp only [List.cons_append, fitUnion]
    rw [he, hrest]

/-- Claim C1: fitting a value against a literal-set descriptor through the
literal validator succeeds and returns the value unchanged exactly when the
value is value-and-kind-equal to some permitted literal, and otherwise fails
with the fit error naming the permitted set and the actual value. -/
theorem claim_C1_literal_validator : ∀ (L : List Lit) (v : Value),
    (_handle_literal L v = Except.ok v ↔ ∃ l ∈ L, litMatches v l = true) ∧
    ((¬ ∃ l ∈ L, litMatches v l = true) →
      _handle_literal L v = Except.error (.mismatch (.literalSet L) v)) := by
  intro L v
  by_cases h : L.any (litMatches v)
  · have hex := List.any_eq_true.mp h
    exact ⟨by simp [_handle_literal, h, hex], fun hc => absurd hex hc⟩
  · have hnex : ¬ ∃ l ∈ L, litMatches v l = true := fun hc =>
      h (List.any_eq_true.mpr hc)
    refine ⟨?_, fun _ => by simp [_handle_literal, h]⟩
    simp [_handle_literal, h, hnex]

/-- Witness for claim C1: the literal set of the strings a, b and c accepts
the string a unchanged and rejects the string d with the mismatch error. -/
theorem claim_C1_literal_validator_witness :
    _handle_literal [Lit.str "a", .str "b", .str "c"] (.str "a") =
      Except.ok (.str "a") ∧
    _handle_literal [Lit.str "a", .str "b", .str "c"] (.str "d") =
      Except.error
        (.mismatch (.literalSet [.str "a", .str "b", .str "c"]) (.str "d")) :=
  ⟨(claim_C1_literal_validator _ _).1.mpr ⟨.str "a", by decide, by decide⟩,
   (claim_C1_literal_validator _ _).2 (by decide)⟩

/-- Claim C2: the end-to-end tagged-union scenario: fitting the mapping
with tag a against the union of A and B yields an A instance, the mapping
with tag b yields a B instance, and the mapping with tag c fails with the
aggregate error listing the literal mismatch of A and the literal mismatch
of B, each wrapped with the field name on which it occurred. -/
theorem claim_C2_tagged_union :
    typefit T_desc (.map [("type", .str "a")]) =
      Except.ok (.recordInst "A" [("type", .scalar (.str "a"))]) ∧
    typefit T_desc (.map [("type", .str "b")]) =
      Except.ok (.recordInst "B" [("type", .scalar (.str "b"))]) ∧
    typefit T_desc (.map [("type", .str "c")]) =
      Except.error (.aggregate
        [.atField "type" (.mismatch (.literalSet [.str "a"]) (.str "c")),
         .atField "type" (.mismatch (.literalSet [.str "b"]) (.str "c"))]) := by
  refine ⟨?_, ?_, ?_⟩ <;>
    simp [typefit, T_desc, A_desc, B_desc, fit, fitUnion, fitFields,
      lookupEntry, _handle_literal, litMatches]

/-- Claim C3: union discrimination is order-sensitive and short-circuiting:
whenever every member before a given member fails on the value and that
member fits it, the union returns that member's result, whatever members
follow it, so the members after the first success are never attempted. -/
theorem claim_C3_union_order : ∀ (pre : List Descriptor) (m : Descriptor)
    (post : List Descriptor) (v : Value) (r : Fitted),
    (∀ m2 ∈ pre, ∃ e, fit m2 v = Except.error e) → fit m v = Except.ok r →
    typefit (.union (pre ++ m :: post)) v = Except.ok r := by
  intro pre m post v r hpre hm
  have h := fitUnion_first_success v pre m post r hpre hm
  simp only [typefit, fit]
  rw [h]

/-- Witness for claim C3: in a union listing B before A, the tag-a mapping
fails on B and fits A, so the union returns the A instance. -/
theorem claim_C3_union_order_witness :
    typefit (.union ([B_desc] ++ A_desc :: [])) (.map [("type", .str "a")]) =
      Except.ok (.recordInst "A" [("type", .scalar (.str "a"))]) :=
  claim_C3_union_order [B_desc] A_desc [] _ _
    (by
      intro m2 hm
      simp only [List.mem_singleton] at hm
      subst hm
      exact ⟨.atField "type" (.mismatch (.literalSet [.str "b"]) (.str "a")), by
        simp [B_desc, fit, fitFields, lookupEntry, _handle_literal,
          litMatches]⟩)
    (by simp [A_desc, fit, fitFields, lookupEntry, _handle_literal,
      litMatches])

/-- Claim C4: when every member of a union fails to fit the value, the
union fails with an error rather than returning a value, and the aggregate
error lists every member's individual failure in member order. -/
theorem claim_C4_union_aggregate : ∀ (ms : List Descriptor) (v : Value),
    (∀ m ∈ ms, ∃ e, fit m v = Except.error e) →
    ∃ errs, typefit (.union ms) v = Except.error (.aggregate errs) ∧
      errs.map some = ms.map (fun m => errOf (fit m v)) := by
  intro ms v h
  obtain ⟨errs, hu, hmap⟩ := fitUnion_all_fail v ms h
  refine ⟨errs, ?_, hmap⟩
  simp only [typefit, fit]
  rw [hu]

/-- Witness for claim C4: both members of the union of A and B fail on the
tag-c mapping, and the aggregate error lists both failures. -/
theorem claim_C4_union_aggregate_witness :
    ∃ errs, typefit (.union [A_desc, B_desc]) (.map [("type", .str "c")]) =
        Except.error (.aggregate errs) ∧
      errs.map some =
        [A_desc, B_desc].map (fun m => errOf (fit m (.map [("type", .str "c")]))) :=
  claim_C4_union_aggregate [A_desc, B_desc] _
    (by
      intro m hm
      simp only [List.mem_cons, List.not_mem_nil, or_false] at hm
      rcases hm with h | h <;> subst h
      · exact ⟨.atField "type" (.mismatch (.literalSet [.str "a"]) (.str "c")), by
          simp [A_desc, fit, fitFields, lookupEntry, _handle_literal,
            litMatches]⟩
      · exact ⟨.atField "type" (.mismatch (.literalSet [.str "b"]) (.str "c")), by
          simp [B_desc, fit, fitFields, lookupEntry, _handle_literal,
            litMatches]⟩)

/-- Claim C6: when a value matches no permitted literal, both the literal
validator and the typefit entry point fail by raising an error; neither
returns a sentinel value in place of the fitted result. -/
theorem claim_C6_no_sentinel : ∀ (L : List Lit) (v : Value),
    (¬ ∃ l ∈ L, litMatches v l = true) →
    (∃ e, _handle_literal L v = Except.error e) ∧
    (∃ e, typefit (.literalSet L) v = Except.error e) := by
  intro L v hnex
  have h : L.any (litMatches v) = false := by
    rw [← Bool.not_eq_true, List.any_eq_true]
    exact hnex
  constructor
  · exact ⟨.mismatch (.literalSet L) v, by simp [_handle_literal, h]⟩
  · exact ⟨.mismatch (.literalSet L) v,
      by simp [typefit, fit, _handle_literal, h]⟩

/-- Witness for claim C6: the string d matches no literal of the set a, b,
c, and both operations fail on it. -/
theorem claim_C6_no_sentinel_witness :
    (∃ e, _handle_literal [Lit.str "a", .str "b", .str "c"] (.str "d") =
      Except.error e) ∧
    (∃ e, typefit (.literalSet [Lit.str "a", .str "b", .str "c"]) (.str "d") =
      Except.error e) :=
  claim_C6_no_sentinel _ _ (by decide)

/-- Claim C7: round-trip stability: two runs of typefit on the same
descriptor and the same value cannot disagree. -/
theorem claim_C7_stability : ∀ (d : Descriptor) (v : Value)
    (r1 r2 : Except FitError Fitted),
    typefit d v = r1 → typefit d v = r2 → r1 = r2 := by
  intro d v r1 r2 h1 h2
  rw [← h1, h2]

/-- Witness for claim C7: two runs on the single-literal set and the
matching string agree. -/
theorem claim_C7_stability_witness :
    typefit (.literalSet [Lit.str "a"]) (.str "a") =
      typefit (.literalSet [Lit.str "a"]) (.str "a") :=
  claim_C7_stability _ _ _ _ rfl rfl

/-- Claim C8: frame condition: a fitting pass leaves the untyped input
value tree unchanged, whether the fit succeeds or fails. -/
theorem claim_C8_frame : ∀ (d : Descriptor) (v : Value),
    (fitPass d v).2 = v :=
  fun d v => rfl

end Typefit
